import Mathlib

/-!
Verification of the Strava activity pipeline of the bikepacking-blog
repository: the encoded-polyline codec (`decodePolyline`/`encodePolyline`),
the paginated activity fetcher (`getAllActivitiesAfter` and its entry point
`getJourneyActivities`), the authenticated-request retry logic (`request`),
and the activity processor (`processActivities`, `calculateBounds`, the
summary-statistics fold of the journey-map component).

JavaScript numbers are modelled as follows: coordinate values are `ℚ`
(every 5-decimal-digit coordinate is exact in `ℚ`, as it is in IEEE-754
doubles at geographic magnitudes); the 32-bit coercions performed by the
JS bitwise operators (`|`, `&`, `<<`, `>>`, `~`) are modelled explicitly,
with the running bit accumulators kept as `ℕ < 2^32` (the unsigned
two's-complement representation) and `toInt32` giving the signed reading.
Timestamps (ISO-8601 strings in the source) are modelled by their epoch
value in seconds as `ℚ`; absent (`undefined`) fields are `Option.none`,
and the JS falsiness of `undefined`, `NaN`-valued dates, `0` and `""` in
the source's truthiness tests is mirrored at each use site.
-/

/-- Signed 32-bit reading of an integer: the value of `n` reduced into
`[-2^31, 2^31)`, i.e. the result of the JS `ToInt32` conversion. -/
def toInt32 (n : ℤ) : ℤ := (n + 2 ^ 31) % 2 ^ 32 - 2 ^ 31

/-- JS `Math.round`: round half toward positive infinity. -/
def jsRound (q : ℚ) : ℤ := ⌊q + 1 / 2⌋

/-- The inner do-while of `decodePolyline` (part_003 lines 39-43 and 51-55):
consume 5-bit groups (char code minus 63) until a group's continuation bit
is clear, accumulating `result |= (b & 0x1f) << shift`.  The accumulator is
the unsigned 32-bit representation.  Reading past the end of the string
(`charCodeAt` returning `NaN`) makes `b & 0x1f` zero and the continuation
test false, so the empty-list case returns immediately, exactly as the JS
loop does. -/
def readVarint : List ℕ → ℕ → ℕ → ℕ × List ℕ
  | [], _, result => (result, [])
  | c :: cs, shift, result =>
    let b : ℤ := (c : ℤ) - 63
    let result' := result ||| ((b % 32).toNat * 2 ^ (shift % 32) % 2 ^ 32)
    if 32 ≤ b then readVarint cs (shift + 5) result'
    else (result', cs)

/-- Zig-zag step of `decodePolyline` (part_003 lines 45 and 57):
`(result & 1) !== 0 ? ~(result >> 1) : (result >> 1)` on the signed 32-bit
reading of the accumulator; `>>` is the arithmetic shift (floor division by
2) and `~x = -1 - x`. -/
def decodeDelta (result : ℕ) : ℤ :=
  if result % 2 = 1 then -1 - (toInt32 result).fdiv 2 else (toInt32 result).fdiv 2

/-- The outer while-loop of `decodePolyline` (part_003 lines 34-63) over the
remaining character codes, carrying the running integer accumulators `lat`
and `lng`; each iteration reads two varints and pushes
`[lat / 1e5, lng / 1e5]`. -/
def decodeLoop : List ℕ → ℤ → ℤ → List (ℚ × ℚ)
  | [], _, _ => []
  | c :: cs, lat, lng =>
    let r1 := readVarint (c :: cs) 0 0
    let lat' := lat + decodeDelta r1.1
    let r2 := readVarint r1.2 0 0
    let lng' := lng + decodeDelta r2.1
    ((lat' : ℚ) / 100000, (lng' : ℚ) / 100000) :: decodeLoop r2.2 lat' lng'
  termination_by codes _ _ => codes.length
  decreasing_by
    have key : ∀ (l : List ℕ) (s r : ℕ), (readVarint l s r).2.length ≤ l.length := by
      intro l
      induction l with
      | nil => intro _ _; simp [readVarint]
      | cons x xs ih =>
        intro s r
        simp only [readVarint]
        split
        · exact Nat.le_trans (ih _ _) (Nat.le_succ _)
        · simp
    have key2 : ∀ (x : ℕ) (xs : List ℕ) (s r : ℕ),
        (readVarint (x :: xs) s r).2.length ≤ xs.length := by
      intro x xs s r
      simp only [readVarint]
      split
      · exact key _ _ _
      · simp
    calc (readVarint (readVarint (c :: cs) 0 0).2 0 0).2.length
        ≤ (readVarint (c :: cs) 0 0).2.length := key _ _ _
      _ ≤ cs.length := key2 _ _ _ _
      _ < (c :: cs).length := by simp

/-- The fixed five-city fixture that the source's `decodePolyline` returns
for the sentinel input (part_003 lines 18-26). -/
def mockPolylineCoords : List (ℚ × ℚ) :=
  [(51.5074, -0.1278), (48.8566, 2.3522), (41.9028, 12.4964),
   (40.4168, -3.7038), (52.5200, 13.4050)]

/-- `decodePolyline` (part_003 lines 12-66): empty input yields `[]`, the
literal sentinel `"mock_polyline_data"` yields the five-city fixture, and
any other string is decoded by the varint loop. -/
def decodePolyline (encoded : String) : List (ℚ × ℚ) :=
  if encoded.length = 0 then []
  else if encoded = "mock_polyline_data" then mockPolylineCoords
  else decodeLoop (encoded.data.map Char.toNat) 0 0

/-- JS `value << 1` as a 32-bit operation: `ToInt32(value) * 2`, reduced
back into signed 32-bit range. -/
def jsShl1 (value : ℤ) : ℤ := toInt32 (2 * toInt32 value)

/-- The emit loop of `encodeValue` (part_003 lines 109-118): while
`v >= 0x20` emit `(0x20 | (v & 0x1f)) + 63` and shift `v` right by 5
(arithmetic shift = floor division), then emit `v + 63` (truncated to a
UTF-16 code unit by `String.fromCharCode`). -/
def encodeValueAux (v : ℤ) : List ℕ :=
  if h : 32 ≤ v then (95 + (v % 32).toNat) :: encodeValueAux (v.fdiv 32)
  else [((v + 63) % 65536).toNat]
  termination_by v.toNat
  decreasing_by
    rw [Int.fdiv_eq_ediv _ (by norm_num)]
    omega

/-- `encodeValue` (part_003 lines 105-119): zig-zag encode
(`value < 0 ? ~(value << 1) : (value << 1)`, with `~x = -1 - x` on the
32-bit value) and emit the 5-bit groups. -/
def encodeValue (value : ℤ) : List ℕ :=
  encodeValueAux (if value < 0 then -1 - jsShl1 value else jsShl1 value)

/-- The for-loop of `encodePolyline` (part_003 lines 82-97): scale each
coordinate by `1e5` with `Math.round`, emit the deltas from the running
accumulators. -/
def encLoop : List (ℚ × ℚ) → ℤ → ℤ → List ℕ
  | [], _, _ => []
  | p :: rest, lat, lng =>
    let latValue := jsRound (p.1 * 100000)
    let lngValue := jsRound (p.2 * 100000)
    encodeValue (latValue - lat) ++ encodeValue (lngValue - lng) ++
      encLoop rest latValue lngValue

/-- `encodePolyline` (part_003 lines 73-100): empty input yields `""`,
otherwise the emitted character codes are assembled into a string. -/
def encodePolyline (points : List (ℚ × ℚ)) : String :=
  match points with
  | [] => ""
  | _ :: _ => String.mk ((encLoop points 0 0).map Char.ofNat)

/-- A Strava `SummaryActivity` as used by the pipeline.  All fields are
optional in the TypeScript API type; `start_date`/`start_date_local`
(ISO-8601 strings in the source) are modelled by their epoch value in
seconds, `start_latlng`/`end_latlng` by optional coordinate lists, and
`map.summary_polyline` is flattened into one optional string (absent when
either `map` or `summary_polyline` is `undefined`). -/
structure SummaryActivity where
  id : Option ℤ
  name : Option String
  type : Option String
  sport_type : Option String
  start_date : Option ℚ
  start_date_local : Option ℚ
  distance : Option ℚ
  elapsed_time : Option ℤ
  total_elevation_gain : Option ℚ
  start_latlng : Option (List ℚ)
  end_latlng : Option (List ℚ)
  summary_polyline : Option String
  deriving DecidableEq

/-- JS comparison `new Date(o).getTime()/1000 >= t` where an absent date
(`new Date('')`, i.e. `NaN`) compares false. -/
def jsGeTime (o : Option ℚ) (t : ℚ) : Bool :=
  match o with
  | some x => decide (t ≤ x)
  | none => false

/-- JS comparison `new Date(o).getTime()/1000 < t`, false for `NaN`. -/
def jsLtTime (o : Option ℚ) (t : ℚ) : Bool :=
  match o with
  | some x => decide (x < t)
  | none => false

/-- The per-page filter of `getAllActivitiesAfter` (strava-client.ts lines
131-134): keep activities with `start_date >= after` and
`type === 'Ride'`. -/
def ridePasses (after : ℚ) (a : SummaryActivity) : Bool :=
  jsGeTime a.start_date after && decide (a.type = some "Ride")

/-- The while-loop of `getAllActivitiesAfter` (strava-client.ts lines
124-148), with the page provider abstracted as `fetch` (one call per page
request, `Except.error` modelling a rejected promise) and an explicit fuel
bound on the number of iterations (the JS loop has no intrinsic bound; all
theorems below instantiate concrete providers that stop well inside the
fuel).  Returns the number of page requests issued together with the
outcome; an error from `fetch` aborts the whole call, exactly as an
exception escapes the JS loop. -/
def getAllLoop (fetch : ℕ → Except String (List SummaryActivity)) (after : ℚ) :
    ℕ → ℕ → ℕ → List SummaryActivity → ℕ × Except String (List SummaryActivity)
  | 0, _, requests, acc => (requests, Except.ok acc)
  | fuel + 1, page, requests, acc =>
    match fetch page with
    | Except.error e => (requests + 1, Except.error e)
    | Except.ok activities =>
      if activities.length = 0 then (requests + 1, Except.ok acc)
      else
        let acc' := acc ++ activities.filter (ridePasses after)
        if decide (activities.length < 200) ||
            (decide (0 < activities.length) &&
              jsLtTime ((activities.getLast?).bind SummaryActivity.start_date) after)
        then (requests + 1, Except.ok acc')
        else getAllLoop fetch after fuel (page + 1) (requests + 1) acc'

/-- `getAllActivitiesAfter` (strava-client.ts lines 118-151): page size 200,
starting at page 1 with an empty accumulator. -/
def getAllActivitiesAfter (fetch : ℕ → Except String (List SummaryActivity))
    (after : ℚ) (fuel : ℕ) : ℕ × Except String (List SummaryActivity) :=
  getAllLoop fetch after fuel 1 0 []

/-- The fixed mock dataset of `getMockActivities` (part_000 lines 41-72);
epoch seconds of 2023-01-05T08:00:00Z, 2023-01-07T18:00:00Z and
2023-01-14T10:00:00Z. -/
def mockActivities : List SummaryActivity :=
  [{ id := some 1, name := some "Morning Run", type := some "Run",
     sport_type := none, start_date := some 1672905600, start_date_local := none,
     distance := some 5000, elapsed_time := none, total_elevation_gain := none,
     start_latlng := none, end_latlng := none,
     summary_polyline := some "mock_polyline_data" },
   { id := some 2, name := some "Evening Ride", type := some "Ride",
     sport_type := none, start_date := some 1673114400, start_date_local := none,
     distance := some 15000, elapsed_time := none, total_elevation_gain := none,
     start_latlng := none, end_latlng := none,
     summary_polyline := some "mock_polyline_data" },
   { id := some 3, name := some "Weekend Hike", type := some "Hike",
     sport_type := none, start_date := some 1673690400, start_date_local := none,
     distance := some 8000, elapsed_time := none, total_elevation_gain := none,
     start_latlng := none, end_latlng := none,
     summary_polyline := some "mock_polyline_data" }]

/-- `getJourneyActivities` (part_000 lines 10-32): convert the start date to
an epoch with `Math.floor`, fetch all activities after it, and on any error
fall back to the mock dataset. -/
def getJourneyActivities (fetch : ℕ → Except String (List SummaryActivity))
    (startDate : ℚ) (fuel : ℕ) : List SummaryActivity × ℚ :=
  match (getAllActivitiesAfter fetch ((⌊startDate⌋ : ℤ) : ℚ) fuel).2 with
  | Except.ok acts => (acts, startDate)
  | Except.error _ => (mockActivities, startDate)

/-- Response of one HTTP attempt of the authenticated `request`
(strava-client.ts lines 51-102): success, 401 Unauthorized, or another
transport error. -/
inductive HttpResp (T : Type) where
  | ok (v : T)
  | err401
  | errOther (msg : String)
  deriving DecidableEq

/-- Observable outcome of `request`: a value, the `AuthError` thrown when
`getAccessToken` fails (strava-client.ts line 44), a propagated final 401,
or a propagated other error. -/
inductive ReqOutcome (T : Type) where
  | ok (v : T)
  | authError
  | err401
  | errOther (msg : String)
  deriving DecidableEq

/-- The try/catch body of `request` (strava-client.ts lines 62-101) once a
bearer token is held: attempt the request; on a 401 refresh the token once
(`getAccessToken`, whose own failure throws an auth error) and retry once,
propagating whatever the retry returns.  `refresh n` is the n-th token
refresh of the call; `http k tok` is the k-th HTTP attempt with bearer
`tok`; `refreshes` counts refreshes already performed by this call. -/
def requestAttempt {T : Type} (refresh : ℕ → Except Unit String)
    (http : ℕ → String → HttpResp T) (refreshes : ℕ) (tok : String) :
    ℕ × ReqOutcome T :=
  match http 1 tok with
  | HttpResp.ok v => (refreshes, ReqOutcome.ok v)
  | HttpResp.errOther m => (refreshes, ReqOutcome.errOther m)
  | HttpResp.err401 =>
    match refresh refreshes with
    | Except.error _ => (refreshes + 1, ReqOutcome.authError)
    | Except.ok tok2 =>
      match http 2 tok2 with
      | HttpResp.ok v => (refreshes + 1, ReqOutcome.ok v)
      | HttpResp.err401 => (refreshes + 1, ReqOutcome.err401)
      | HttpResp.errOther m => (refreshes + 1, ReqOutcome.errOther m)

/-- `request` (strava-client.ts lines 51-102): if no access token is held,
acquire one first (`getAccessToken`, counting as a refresh; its failure is
an auth error), then run the attempt/retry body.  Returns the number of
token-refresh calls made together with the outcome. -/
def clientRequest {T : Type} (refresh : ℕ → Except Unit String)
    (http : ℕ → String → HttpResp T) (accessToken : Option String) :
    ℕ × ReqOutcome T :=
  match accessToken with
  | some tok => requestAttempt refresh http 0 tok
  | none =>
    match refresh 0 with
    | Except.error _ => (1, ReqOutcome.authError)
    | Except.ok tok => requestAttempt refresh http 1 tok

/-- A GeoJSON feature as built by `processActivities` (part_004 lines
78-95): the activity's descriptive properties plus the decoded coordinate
sequence in `(longitude, latitude)` order. -/
structure MapFeature where
  id : Option ℤ
  name : Option String
  type : Option String
  date : Option ℚ
  distance : Option ℚ
  sport_type : Option String
  start_date_local : Option ℚ
  elapsed_time : Option ℤ
  total_elevation_gain : Option ℚ
  coordinates : List (ℚ × ℚ)
  deriving DecidableEq

/-- The feature collection returned by `processActivities`. -/
structure FeatureCollection where
  features : List MapFeature
  deriving DecidableEq

/-- JS truthiness of `activity.map?.summary_polyline`: present and
non-empty. -/
def hasPolyline (a : SummaryActivity) : Bool :=
  match a.summary_polyline with
  | some s => decide (s.length ≠ 0)
  | none => false

/-- The date filter of `processActivities` (part_004 lines 45-47):
`activity.start_date && new Date(activity.start_date) >= new Date(startDate)`. -/
def datePasses (startDate : ℚ) (a : SummaryActivity) : Bool :=
  jsGeTime a.start_date startDate

/-- The sort key `new Date(a.start_date || '').getTime()` (part_004 lines
50-54).  The comparator is only ever applied to activities that passed the
date filter, so the `getD` default never decides an order in the program's
runs. -/
def startTime (a : SummaryActivity) : ℚ := (a.start_date).getD 0

/-- Boolean comparator modelling the stable ascending JS sort by
`dateA - dateB`. -/
def dateLe (a b : SummaryActivity) : Bool := decide (startTime a ≤ startTime b)

/-- Decode an activity's polyline and swap to `(lng, lat)` GeoJSON axis
order (part_004 lines 66-69). -/
def activityCoords (a : SummaryActivity) : List (ℚ × ℚ) :=
  (decodePolyline ((a.summary_polyline).getD "")).map (fun q => (q.2, q.1))

/-- Build the feature for one activity (part_004 lines 78-95). -/
def toFeature (a : SummaryActivity) : MapFeature :=
  { id := a.id, name := a.name, type := a.type, date := a.start_date,
    distance := a.distance, sport_type := a.sport_type,
    start_date_local := a.start_date_local, elapsed_time := a.elapsed_time,
    total_elevation_gain := a.total_elevation_gain,
    coordinates := activityCoords a }

/-- `processActivities` (part_004 lines 33-102, the activity-processor
variant used by the journey map): filter by date, stable-sort ascending,
keep polyline-bearing activities, and emit a feature per activity whose
decode yields at least one point (the `coordinates.length === 0` check at
lines 72-75 skips the rest). -/
def processActivities (activities : List SummaryActivity) (startDate : ℚ) :
    FeatureCollection :=
  if activities.length = 0 then ⟨[]⟩
  else
    let sorted := (activities.filter (datePasses startDate)).mergeSort dateLe
    ⟨(sorted.filter hasPolyline).filterMap fun a =>
      if (activityCoords a).length = 0 then none else some (toFeature a)⟩

/-- The feature shape of the second `processActivities` variant (part_004
lines 217-230): only the five basic properties. -/
structure MapFeatureV2 where
  id : Option ℤ
  name : Option String
  type : Option String
  date : Option ℚ
  distance : Option ℚ
  coordinates : List (ℚ × ℚ)
  deriving DecidableEq

/-- Feature builder of the second variant (part_004 lines 212-231). -/
def toFeatureV2 (a : SummaryActivity) : MapFeatureV2 :=
  { id := a.id, name := a.name, type := a.type, date := a.start_date,
    distance := a.distance, coordinates := activityCoords a }

/-- The second `processActivities` variant (part_004 lines 189-237): same
filter and sort, but every polyline-bearing activity is mapped to a
feature with no empty-decode skip. -/
def processActivitiesV2 (activities : List SummaryActivity) (startDate : ℚ) :
    List MapFeatureV2 :=
  if activities.length = 0 then []
  else
    let sorted := (activities.filter (datePasses startDate)).mergeSort dateLe
    (sorted.filter hasPolyline).map toFeatureV2

/-- Accumulator of `calculateBounds` (part_004 lines 116-120). -/
structure BoundsAcc where
  minLat : ℚ
  maxLat : ℚ
  minLng : ℚ
  maxLng : ℚ
  found : Bool
  deriving DecidableEq

/-- Fold one `(lat, lng)` point into the bounds accumulator and set the
found flag (the min/max update repeated at part_004 lines 127-131, 136-141
and 148-153). -/
def boundsPoint (acc : BoundsAcc) (lat lng : ℚ) : BoundsAcc :=
  { minLat := min acc.minLat lat, maxLat := max acc.maxLat lat,
    minLng := min acc.minLng lng, maxLng := max acc.maxLng lng, found := true }

/-- Per-activity body of `calculateBounds` (part_004 lines 123-156):
start point if present with exactly two components, then end point, then
every decoded polyline point. -/
def boundsStep (acc : BoundsAcc) (a : SummaryActivity) : BoundsAcc :=
  let acc1 := match a.start_latlng with
    | some [lat, lng] => boundsPoint acc lat lng
    | _ => acc
  let acc2 := match a.end_latlng with
    | some [lat, lng] => boundsPoint acc1 lat lng
    | _ => acc1
  match a.summary_polyline with
  | some s =>
    if s.length = 0 then acc2
    else (decodePolyline s).foldl (fun ac q => boundsPoint ac q.1 q.2) acc2
  | none => acc2

/-- `calculateBounds` (part_004 lines 111-159): `null` for an empty list,
otherwise fold all coordinate sources and return
`(minLng, minLat, maxLng, maxLat)` when any point was found. -/
def calculateBounds (activities : List SummaryActivity) :
    Option (ℚ × ℚ × ℚ × ℚ) :=
  if activities.length = 0 then none
  else
    let acc := activities.foldl boundsStep ⟨90, -90, 180, -180, false⟩
    if acc.found then some (acc.minLng, acc.minLat, acc.maxLng, acc.maxLat)
    else none

/-- `groupActivitiesByType` (part_004 lines 166-176); the record
`Record<string, number>` is modelled as a total count function, `0` for
keys never incremented, and the JS truthiness of `activity.type` skips an
absent or empty type string. -/
def groupActivitiesByType (activities : List SummaryActivity) : String → ℕ :=
  activities.foldl
    (fun r a =>
      match a.type with
      | some ty => if ty.length = 0 then r
                   else fun s => if s = ty then r s + 1 else r s
      | none => r)
    (fun _ => 0)

/-- `calculateTotalDistance` (part_004 lines 183-185):
`reduce((total, a) => total + (a.distance || 0), 0)`. -/
def calculateTotalDistance (activities : List SummaryActivity) : ℚ :=
  activities.foldl (fun total a => total + (a.distance).getD 0) 0

/-- JS truthiness of an optional numeric field: present and non-zero. -/
def jsTruthyQ (o : Option ℚ) : Bool :=
  match o with
  | some x => decide (x ≠ 0)
  | none => false

/-- The stats held by the journey-map component (part_002 lines 69-74). -/
structure JourneyStats where
  totalDistance : ℚ
  totalElevationGain : ℚ
  totalActivities : ℕ
  activityTypes : String → ℕ

/-- The `useState` initial stats (part_002 lines 69-74). -/
def initialStats : JourneyStats :=
  { totalDistance := 0, totalElevationGain := 0, totalActivities := 0,
    activityTypes := fun _ => 0 }

/-- Per-activity body of the stats `forEach` (part_002 lines 145-157) over
the state `(totalDistance, stats.totalElevationGain, activityTypes)`:
`totalDistance` and `activityTypes` are fresh locals, while the elevation
gain is accumulated into the PREVIOUS stats object
(`stats.totalElevationGain += ...`). -/
def statsStep (acc : ℚ × ℚ × (String → ℕ)) (a : SummaryActivity) :
    ℚ × ℚ × (String → ℕ) :=
  let td := if jsTruthyQ a.distance then acc.1 + (a.distance).getD 0 else acc.1
  let eg := if jsTruthyQ a.total_elevation_gain
            then acc.2.1 + (a.total_elevation_gain).getD 0 else acc.2.1
  let ty := match a.type with
    | some t => if t.length = 0 then acc.2.2
                else fun s => if s = t then acc.2.2 s + 1 else acc.2.2 s
    | none => acc.2.2
  (td, eg, ty)

/-- The stats computation of the journey-map `useEffect` (part_002 lines
135-164): when the activity list is non-empty, fold the activities starting
from a fresh `totalDistance`/`activityTypes` but from the elevation gain
retained in the previous stats object, then publish the new stats. -/
def computeStats (stats : JourneyStats) (activities : List SummaryActivity) :
    JourneyStats :=
  if activities.length = 0 then stats
  else
    let r := activities.foldl statsStep (0, stats.totalElevationGain, fun _ => 0)
    { totalDistance := r.1, totalElevationGain := r.2.1,
      totalActivities := activities.length, activityTypes := r.2.2 }

/-- Modelled from the spec (section 4.4, "Derived aggregates ... must use a
freshly-initialized accumulator per invocation"): the elevation-gain
aggregate as a linear fold from a fresh zero accumulator, the behaviour
claim C9 asserts of every invocation. -/
def freshElevationFold (activities : List SummaryActivity) : ℚ :=
  activities.foldl
    (fun s a => if jsTruthyQ a.total_elevation_gain
                then s + (a.total_elevation_gain).getD 0 else s) 0

/-- An activity with every optional field absent. -/
def bareActivity : SummaryActivity :=
  { id := none, name := none, type := none, sport_type := none,
    start_date := none, start_date_local := none, distance := none,
    elapsed_time := none, total_elevation_gain := none, start_latlng := none,
    end_latlng := none, summary_polyline := none }

/-- A minimal "Ride" dated at epoch 100. -/
def rideActivity : SummaryActivity :=
  { bareActivity with type := some "Ride", start_date := some 100 }

/-- A minimal "Run" dated at epoch 100. -/
def runActivity : SummaryActivity :=
  { bareActivity with type := some "Run", start_date := some 100 }

/-- Simulated provider for claim C2's counterexample: pages of 200, 200 and
50 activities, all dated after the window but of type "Run". -/
def runPagesFetch : ℕ → Except String (List SummaryActivity) :=
  fun page =>
    if page ≤ 2 then Except.ok (List.replicate 200 runActivity)
    else Except.ok (List.replicate 50 runActivity)

/-- Simulated provider for claim C3's counterexample: a full first page of
rides, then a network failure on page 2. -/
def failingPage2Fetch : ℕ → Except String (List SummaryActivity) :=
  fun page =>
    if page = 1 then Except.ok (List.replicate 200 rideActivity)
    else Except.error "network down"

/-- Simulated provider for claim C2's amended scenario: pages of 200, 200
and 50 rides, all dated after the window. -/
def ridePagesFetch : ℕ → Except String (List SummaryActivity) :=
  fun page =>
    if page ≤ 2 then Except.ok (List.replicate 200 rideActivity)
    else Except.ok (List.replicate 50 rideActivity)

/-- An activity dated before the journey start, carrying a polyline. -/
def beforeStartActivity : SummaryActivity :=
  { bareActivity with
    id := some 10, start_date := some 0,
    summary_polyline := some "mock_polyline_data" }

/-- An activity dated after the journey start but with no polyline. -/
def afterStartNoPolyActivity : SummaryActivity :=
  { bareActivity with id := some 11, start_date := some 100 }

/-- An activity whose only coordinate sources are `start_latlng=[10,20]`
and `end_latlng=[-5,30]` (the claim C7 scenario). -/
def boundsActivity : SummaryActivity :=
  { bareActivity with
    start_latlng := some [10, 20],
    end_latlng := some [-5, 30] }

/-- An activity with `total_elevation_gain = 100` (the claim C9 scenario). -/
def elevationActivity : SummaryActivity :=
  { bareActivity with
    type := some "Ride", start_date := some 100,
    distance := some 5000, total_elevation_gain := some 100 }

/-- A mock activity with the sentinel polyline, dated at epoch 100. -/
def sentinelActivity : SummaryActivity :=
  { bareActivity with
    id := some 7, name := some "Ride one",
    type := some "Ride", start_date := some 100, distance := some 5000,
    summary_polyline := some "mock_polyline_data" }

theorem decodeLoop_cons (c : ℕ) (cs : List ℕ) (lat lng : ℤ) :
    decodeLoop (c :: cs) lat lng =
      (((lat + decodeDelta (readVarint (c :: cs) 0 0).1 : ℤ) : ℚ) / 100000,
       ((lng + decodeDelta (readVarint (readVarint (c :: cs) 0 0).2 0 0).1 : ℤ) : ℚ) / 100000) ::
        decodeLoop (readVarint (readVarint (c :: cs) 0 0).2 0 0).2
          (lat + decodeDelta (readVarint (c :: cs) 0 0).1)
          (lng + decodeDelta (readVarint (readVarint (c :: cs) 0 0).2 0 0).1) := by
  rw [decodeLoop]

theorem readVarint_snd_length_le (l : List ℕ) :
    ∀ (s r : ℕ), (readVarint l s r).2.length ≤ l.length := by
  induction l with
  | nil => intro _ _; simp [readVarint]
  | cons x xs ih =>
    intro s r
    simp only [readVarint]
    split
    · exact Nat.le_trans (ih _ _) (Nat.le_succ _)
    · simp

theorem readVarint_snd_length_lt (x : ℕ) (xs : List ℕ) (s r : ℕ) :
    (readVarint (x :: xs) s r).2.length ≤ xs.length := by
  simp only [readVarint]
  split
  · exact readVarint_snd_length_le _ _ _
  · simp

theorem decodeLoop_length_le (n : ℕ) :
    ∀ (codes : List ℕ), codes.length ≤ n →
      ∀ (lat lng : ℤ), (decodeLoop codes lat lng).length ≤ codes.length := by
  induction n with
  | zero =>
    intro codes hc lat lng
    have : codes = [] := List.length_eq_zero.mp (Nat.le_zero.mp hc)
    subst this
    simp [decodeLoop]
  | succ n ih =>
    intro codes hc lat lng
    match codes with
    | [] => simp [decodeLoop]
    | c :: cs =>
      rw [decodeLoop_cons]
      have h1 : (readVarint (readVarint (c :: cs) 0 0).2 0 0).2.length ≤ cs.length :=
        Nat.le_trans (readVarint_snd_length_le _ _ _) (readVarint_snd_length_lt _ _ _ _)
      have hcs : cs.length ≤ n := by
        simp only [List.length_cons] at hc
        omega
      have h2 := ih (readVarint (readVarint (c :: cs) 0 0).2 0 0).2
        (Nat.le_trans h1 hcs)
        (lat + decodeDelta (readVarint (c :: cs) 0 0).1)
        (lng + decodeDelta (readVarint (readVarint (c :: cs) 0 0).2 0 0).1)
      simp only [List.length_cons]
      omega

theorem decodeLoop_cons_ne_nil (c : ℕ) (cs : List ℕ) (lat lng : ℤ) :
    decodeLoop (c :: cs) lat lng ≠ [] := by
  rw [decodeLoop_cons]
  simp

theorem decodePolyline_ne_nil (s : String) (h : s.length ≠ 0) :
    decodePolyline s ≠ [] := by
  unfold decodePolyline
  rw [if_neg h]
  split
  · simp [mockPolylineCoords]
  · have hdata : s.data ≠ [] := by
      intro hd
      exact h (by simp [String.length, hd])
    match hm : s.data.map Char.toNat with
    | [] => exact absurd (by simpa using hm) hdata
    | c :: cs => exact decodeLoop_cons_ne_nil c cs 0 0

/-- C8: `decodePolyline` applied to the exact string `"mock_polyline_data"`
returns exactly the five city coordinates (London, Paris, Rome, Madrid,
Berlin) in that order. -/
theorem decodePolyline_sentinel_fixture :
    decodePolyline "mock_polyline_data" =
      [(51.5074, -0.1278), (48.8566, 2.3522), (41.9028, 12.4964),
       (40.4168, -3.7038), (52.5200, 13.4050)] := rfl

/-- C10: on every input string, well-formed or not, `decodePolyline`
terminates with a finite coordinate list — it is a total function in this
embedding because each inner 5-bit-group loop stops at the end of the
input (a `charCodeAt` past the end yields `NaN`, whose masked group is `0`
and whose continuation test is false) — and its result never holds more
points than the input has characters. -/
theorem decodePolyline_terminates_finite (s : String) :
    (decodePolyline s).length ≤ s.length := by
  obtain ⟨data⟩ := s
  unfold decodePolyline
  split
  · simp
  · split
    · rename_i h1 h2
      rw [h2]
      norm_num [String.length, mockPolylineCoords]
    · have := decodeLoop_length_le (data.map Char.toNat).length
        (data.map Char.toNat) le_rfl 0 0
      simpa using this

theorem boundsStep_bare (acc : BoundsAcc) (a : SummaryActivity)
    (h1 : a.start_latlng = none) (h2 : a.end_latlng = none)
    (h3 : a.summary_polyline = none) : boundsStep acc a = acc := by
  unfold boundsStep
  rw [h1, h2, h3]

theorem foldl_boundsStep_bare (l : List SummaryActivity)
    (hl : ∀ a ∈ l, a.start_latlng = none ∧ a.end_latlng = none ∧
      a.summary_polyline = none) :
    ∀ acc, l.foldl boundsStep acc = acc := by
  induction l with
  | nil => intro acc; rfl
  | cons a as ih =>
    intro acc
    obtain ⟨h1, h2, h3⟩ := hl a (List.mem_cons_self _ _)
    rw [List.foldl_cons, boundsStep_bare acc a h1 h2 h3]
    exact ih (fun x hx => hl x (List.mem_cons_of_mem _ hx)) acc

/-- C7: `calculateBounds` returns `none` on the empty list and on any list
of activities that carry no `start_latlng`, no `end_latlng` and no
polyline; and on the activity whose only coordinate sources are
`start_latlng = [10, 20]` and `end_latlng = [-5, 30]` it returns the
extrema in `(minLng, minLat, maxLng, maxLat)` order, i.e.
`(20, -5, 30, 10)`. -/
theorem calculateBounds_spec :
    calculateBounds [] = none
    ∧ (∀ l : List SummaryActivity,
        (∀ a ∈ l, a.start_latlng = none ∧ a.end_latlng = none ∧
          a.summary_polyline = none) →
        calculateBounds l = none)
    ∧ calculateBounds [boundsActivity] = some (20, -5, 30, 10) := by
  refine ⟨rfl, ?_, by rfl⟩
  intro l hl
  unfold calculateBounds
  split
  · rfl
  · rw [foldl_boundsStep_bare l hl]
    rfl

/-- Witness for C7: the coordinate-free branch evaluated on one concrete
coordinate-free activity. -/
theorem calculateBounds_spec_witness : calculateBounds [bareActivity] = none :=
  calculateBounds_spec.2.1 [bareActivity]
    (by intro a ha
        rcases List.mem_singleton.mp ha with rfl
        exact ⟨rfl, rfl, rfl⟩)

/-- C9 (the claim is right, the code is not): the journey-map stats effect
accumulates `totalElevationGain` into the stats object retained from the
previous invocation (`stats.totalElevationGain += ...`, part_002 line 151),
so a second invocation on the same one-activity list (elevation gain 100)
reports 200, whereas the fold from a freshly-initialized zero accumulator —
what the claim requires of every invocation — yields 100. -/
theorem statsEffect_elevation_accumulates :
    (computeStats (computeStats initialStats [elevationActivity])
        [elevationActivity]).totalElevationGain = 200
    ∧ freshElevationFold [elevationActivity] = 100 := by
  constructor
  · norm_num [computeStats, statsStep, jsTruthyQ, elevationActivity,
      bareActivity, initialStats]
  · norm_num [freshElevationFold, jsTruthyQ, elevationActivity, bareActivity]

theorem getAllLoop_error (fetch : ℕ → Except String (List SummaryActivity))
    (after : ℚ) (fuel page requests : ℕ) (acc : List SummaryActivity)
    (e : String) (hf : fetch page = Except.error e) :
    getAllLoop fetch after (fuel + 1) page requests acc =
      (requests + 1, Except.error e) := by
  simp [getAllLoop, hf]

theorem getAllLoop_emptyPage (fetch : ℕ → Except String (List SummaryActivity))
    (after : ℚ) (fuel page requests : ℕ) (acc : List SummaryActivity)
    (hf : fetch page = Except.ok []) :
    getAllLoop fetch after (fuel + 1) page requests acc =
      (requests + 1, Except.ok acc) := by
  simp [getAllLoop, hf]

theorem getAllLoop_shortPage (fetch : ℕ → Except String (List SummaryActivity))
    (after : ℚ) (fuel page requests : ℕ) (acc p : List SummaryActivity)
    (hf : fetch page = Except.ok p) (h0 : p.length ≠ 0) (hs : p.length < 200) :
    getAllLoop fetch after (fuel + 1) page requests acc =
      (requests + 1, Except.ok (acc ++ p.filter (ridePasses after))) := by
  simp [getAllLoop, hf, h0, hs]

theorem getAllLoop_fullPage (fetch : ℕ → Except String (List SummaryActivity))
    (after : ℚ) (fuel page requests : ℕ) (acc p : List SummaryActivity)
    (hf : fetch page = Except.ok p) (hlen : p.length = 200)
    (hdates : ∀ a ∈ p, ∃ t : ℚ, a.start_date = some t ∧ after ≤ t) :
    getAllLoop fetch after (fuel + 1) page requests acc =
      getAllLoop fetch after fuel (page + 1) (requests + 1)
        (acc ++ p.filter (ridePasses after)) := by
  have hne : p ≠ [] := by
    intro h
    rw [h] at hlen
    simp at hlen
  obtain ⟨aL, hgl⟩ : ∃ aL, p.getLast? = some aL := by
    cases hgl : p.getLast? with
    | none => exact absurd (List.getLast?_eq_none_iff.mp hgl) hne
    | some aL => exact ⟨aL, rfl⟩
  obtain ⟨t, ht, hge⟩ := hdates aL (List.mem_of_getLast?_eq_some hgl)
  simp [getAllLoop, hf, hlen, hgl, ht, jsLtTime, not_lt.mpr hge]

set_option maxRecDepth 40000 in
/-- C2 counterexample: a provider returning 200, 200 and 50 activities on
pages 1-3, every item dated after the window but of type "Run": the
fetcher still issues exactly 3 page requests, but it returns 0 activities,
not 450, because `getAllActivitiesAfter` additionally filters to
`type === 'Ride'` (strava-client.ts line 133). -/
theorem pagination_counterexample :
    getAllActivitiesAfter runPagesFetch 0 5 = (3, Except.ok [])
    ∧ (List.replicate 200 runActivity ++ List.replicate 200 runActivity ++
        List.replicate 50 runActivity).length = 450 := by
  constructor
  · rfl
  · rfl

/-- C2 (amended): for a provider returning exactly 200, 200 and 50
activities of type "Ride" on three successive pages, every item dated
`start_date ≥ after` (the oldest item of page 3 included),
`getAllActivitiesAfter` issues exactly 3 page requests and returns all 450
activities; and for a provider whose first page is empty it issues exactly
1 request and returns 0 activities. -/
theorem pagination_termination (fetch : ℕ → Except String (List SummaryActivity))
    (after : ℚ) (p1 p2 p3 : List SummaryActivity)
    (h1 : fetch 1 = Except.ok p1) (h2 : fetch 2 = Except.ok p2)
    (h3 : fetch 3 = Except.ok p3)
    (l1 : p1.length = 200) (l2 : p2.length = 200) (l3 : p3.length = 50)
    (hall : ∀ a ∈ p1 ++ p2 ++ p3,
      (∃ t : ℚ, a.start_date = some t ∧ after ≤ t) ∧ a.type = some "Ride") :
    (getAllActivitiesAfter fetch after 5 = (3, Except.ok (p1 ++ p2 ++ p3))
      ∧ (p1 ++ p2 ++ p3).length = 450)
    ∧ (∀ g : ℕ → Except String (List SummaryActivity), g 1 = Except.ok [] →
        getAllActivitiesAfter g after 5 = (1, Except.ok [])) := by
  have hmem1 : ∀ a ∈ p1, a ∈ p1 ++ p2 ++ p3 := fun a ha => by simp [ha]
  have hmem2 : ∀ a ∈ p2, a ∈ p1 ++ p2 ++ p3 := fun a ha => by simp [ha]
  have hmem3 : ∀ a ∈ p3, a ∈ p1 ++ p2 ++ p3 := fun a ha => by simp [ha]
  have hf : ∀ (p : List SummaryActivity), (∀ a ∈ p, a ∈ p1 ++ p2 ++ p3) →
      p.filter (ridePasses after) = p := by
    intro p hp
    refine List.filter_eq_self.mpr fun a ha => ?_
    obtain ⟨⟨t, ht, hge⟩, hty⟩ := hall a (hp a ha)
    simp [ridePasses, jsGeTime, ht, hge, hty]
  have hd : ∀ (p : List SummaryActivity), (∀ a ∈ p, a ∈ p1 ++ p2 ++ p3) →
      ∀ a ∈ p, ∃ t : ℚ, a.start_date = some t ∧ after ≤ t := by
    intro p hp a ha
    exact (hall a (hp a ha)).1
  constructor
  · constructor
    · calc getAllActivitiesAfter fetch after 5
          = getAllLoop fetch after (4 + 1) 1 0 [] := rfl
        _ = getAllLoop fetch after (3 + 1) 2 1
              ([] ++ p1.filter (ridePasses after)) :=
            getAllLoop_fullPage fetch after 4 1 0 [] p1 h1 l1 (hd p1 hmem1)
        _ = getAllLoop fetch after (2 + 1) 3 2
              (([] ++ p1.filter (ridePasses after)) ++
                p2.filter (ridePasses after)) :=
            getAllLoop_fullPage fetch after 3 2 1 _ p2 h2 l2 (hd p2 hmem2)
        _ = (3, Except.ok ((([] ++ p1.filter (ridePasses after)) ++
              p2.filter (ridePasses after)) ++ p3.filter (ridePasses after))) :=
            getAllLoop_shortPage fetch after 2 3 2 _ p3 h3
              (by rw [l3]; norm_num) (by rw [l3]; norm_num)
        _ = (3, Except.ok (p1 ++ p2 ++ p3)) := by
            rw [hf p1 hmem1, hf p2 hmem2, hf p3 hmem3]
            simp
    · simp [l1, l2, l3]
  · intro g hg
    exact getAllLoop_emptyPage g after 4 1 0 [] hg

set_option maxRecDepth 40000 in
/-- Witness for C2 (amended): the three-ride-page provider yields exactly
3 requests and the 450 rides; the empty provider yields 1 request and no
activities. -/
theorem pagination_termination_witness :
    getAllActivitiesAfter ridePagesFetch 0 5 =
      (3, Except.ok (List.replicate 200 rideActivity ++
        List.replicate 200 rideActivity ++ List.replicate 50 rideActivity))
    ∧ getAllActivitiesAfter (fun _ => Except.ok []) 0 5 = (1, Except.ok []) := by
  have h := pagination_termination ridePagesFetch 0
    (List.replicate 200 rideActivity) (List.replicate 200 rideActivity)
    (List.replicate 50 rideActivity) rfl rfl rfl
    (List.length_replicate 200 rideActivity) (List.length_replicate 200 rideActivity)
    (List.length_replicate 50 rideActivity)
    (by
      intro a ha
      have ha' : a = rideActivity := by
        rcases List.mem_append.mp ha with h | h
        · rcases List.mem_append.mp h with h1 | h1
          · exact List.eq_of_mem_replicate h1
          · exact List.eq_of_mem_replicate h1
        · exact List.eq_of_mem_replicate h
      subst ha'
      exact ⟨⟨100, rfl, by norm_num⟩, rfl⟩)
  exact ⟨h.1.1, h.2 (fun _ => Except.ok []) rfl⟩

set_option maxRecDepth 40000 in
/-- C3 counterexample: with a full first page of rides and a network error
on page 2, `getAllActivitiesAfter` returns the error itself (after 2
requests) instead of the accumulated page-1 activities — the function body
has no try/catch (strava-client.ts lines 118-151), so the claimed
partial-success semantics do not hold. -/
theorem fetch_error_counterexample :
    getAllActivitiesAfter failingPage2Fetch 0 5 = (2, Except.error "network down")
    ∧ failingPage2Fetch 1 = Except.ok (List.replicate 200 rideActivity) :=
  ⟨by rfl, by rfl⟩

/-- C3 (amended): a fetch error on a later page propagates out of
`getAllActivitiesAfter` even after a successful first page; the entry
point `getJourneyActivities` catches it and returns the fixed mock
dataset, not the partial accumulation (part_000 lines 27-31). -/
theorem fetchError_falls_back_to_mock
    (fetch : ℕ → Except String (List SummaryActivity)) (startDate : ℚ)
    (p1 : List SummaryActivity) (e : String)
    (h1 : fetch 1 = Except.ok p1) (hlen : p1.length = 200)
    (hdates : ∀ a ∈ p1, ∃ t : ℚ, a.start_date = some t ∧
      ((⌊startDate⌋ : ℤ) : ℚ) ≤ t)
    (h2 : fetch 2 = Except.error e) :
    (getAllActivitiesAfter fetch ((⌊startDate⌋ : ℤ) : ℚ) 5).2 = Except.error e
    ∧ getJourneyActivities fetch startDate 5 = (mockActivities, startDate) := by
  have key : getAllActivitiesAfter fetch ((⌊startDate⌋ : ℤ) : ℚ) 5 =
      (2, Except.error e) := by
    calc getAllActivitiesAfter fetch ((⌊startDate⌋ : ℤ) : ℚ) 5
        = getAllLoop fetch ((⌊startDate⌋ : ℤ) : ℚ) (4 + 1) 1 0 [] := rfl
      _ = getAllLoop fetch ((⌊startDate⌋ : ℤ) : ℚ) (3 + 1) 2 1
            ([] ++ p1.filter (ridePasses ((⌊startDate⌋ : ℤ) : ℚ))) :=
          getAllLoop_fullPage fetch _ 4 1 0 [] p1 h1 hlen hdates
      _ = (2, Except.error e) := getAllLoop_error fetch _ 3 2 1 _ e h2
  refine ⟨by rw [key], ?_⟩
  unfold getJourneyActivities
  rw [key]

set_option maxRecDepth 40000 in
/-- Witness for C3 (amended): the failing-page-2 provider makes the entry
point return the mock dataset. -/
theorem fetchError_falls_back_to_mock_witness :
    getJourneyActivities failingPage2Fetch 0 5 = (mockActivities, 0) :=
  (fetchError_falls_back_to_mock failingPage2Fetch 0
    (List.replicate 200 rideActivity) "network down" rfl
    (List.length_replicate 200 rideActivity)
    (by
      intro a ha
      have ha' : a = rideActivity := List.eq_of_mem_replicate ha
      subst ha'
      exact ⟨100, rfl, by norm_num⟩) rfl).2

/-- C4: for a request made while a bearer token is held, a 401 on the
first attempt triggers exactly one token refresh and exactly one retry:
if the retry succeeds the call returns the page with one refresh
performed; if the retry is another 401 the call fails with that
authentication error, still with exactly one refresh (no second retry). -/
theorem request_auth_retry {T : Type} (refresh : ℕ → Except Unit String)
    (http : ℕ → String → HttpResp T) (t t2 : String) (page : T)
    (hr : refresh 0 = Except.ok t2) (h1 : http 1 t = HttpResp.err401) :
    (http 2 t2 = HttpResp.ok page →
      clientRequest refresh http (some t) = (1, ReqOutcome.ok page))
    ∧ (http 2 t2 = HttpResp.err401 →
      clientRequest refresh http (some t) = (1, ReqOutcome.err401)) := by
  constructor
  · intro h2
    simp [clientRequest, requestAttempt, h1, hr, h2]
  · intro h2
    simp [clientRequest, requestAttempt, h1, hr, h2]

/-- Witness for C4: both retry outcomes at concrete transports. -/
theorem request_auth_retry_witness :
    clientRequest (fun _ => Except.ok "tok2")
      (fun attempt _ => if attempt = 1 then HttpResp.err401 else HttpResp.ok 42)
      (some "tok1") = (1, ReqOutcome.ok 42)
    ∧ clientRequest (fun _ => Except.ok "tok2")
      (fun _ _ => (HttpResp.err401 : HttpResp ℕ))
      (some "tok1") = (1, ReqOutcome.err401) :=
  ⟨(request_auth_retry (fun _ => Except.ok "tok2")
      (fun attempt _ => if attempt = 1 then HttpResp.err401 else HttpResp.ok 42)
      "tok1" "tok2" 42 rfl rfl).1 rfl,
   (request_auth_retry (fun _ => Except.ok "tok2")
      (fun _ _ => (HttpResp.err401 : HttpResp ℕ))
      "tok1" "tok2" 42 rfl rfl).2 rfl⟩

theorem decodePolyline_mock_eq :
    decodePolyline "mock_polyline_data" = mockPolylineCoords := rfl

/-- C5: every feature emitted by either `processActivities` variant carries
at least one coordinate. -/
theorem features_have_points :
    (∀ (activities : List SummaryActivity) (startDate : ℚ),
      ∀ f ∈ (processActivities activities startDate).features,
        1 ≤ f.coordinates.length)
    ∧ (∀ (activities : List SummaryActivity) (startDate : ℚ),
      ∀ g ∈ processActivitiesV2 activities startDate,
        1 ≤ g.coordinates.length) := by
  constructor
  · intro activities startDate f hf
    unfold processActivities at hf
    split at hf
    · simp at hf
    · obtain ⟨a, ha, hGa⟩ := List.mem_filterMap.mp hf
      by_cases hc : (activityCoords a).length = 0
      · rw [if_pos hc] at hGa
        exact absurd hGa (by simp)
      · rw [if_neg hc] at hGa
        obtain rfl : toFeature a = f := Option.some_injective _ hGa
        have : (toFeature a).coordinates = activityCoords a := rfl
        rw [this]
        omega
  · intro activities startDate g hg
    unfold processActivitiesV2 at hg
    split at hg
    · simp at hg
    · obtain ⟨a, ha, rfl⟩ := List.mem_map.mp hg
      have hp : hasPolyline a = true := (List.mem_filter.mp ha).2
      unfold hasPolyline at hp
      cases hs : a.summary_polyline with
      | none => rw [hs] at hp; exact absurd hp (by simp)
      | some s =>
        rw [hs] at hp
        have hlen : s.length ≠ 0 := by simpa using hp
        have hne : decodePolyline s ≠ [] := decodePolyline_ne_nil s hlen
        have : (toFeatureV2 a).coordinates =
            (decodePolyline ((a.summary_polyline).getD "")).map (fun q => (q.2, q.1)) := rfl
        rw [this, hs]
        simp only [Option.getD_some, List.length_map]
        have := List.length_pos.mpr hne
        omega

set_option maxRecDepth 4000 in
theorem hasPolyline_sentinelActivity : hasPolyline sentinelActivity = true := by decide

set_option maxRecDepth 4000 in
theorem activityCoords_sentinelActivity :
    activityCoords sentinelActivity = mockPolylineCoords.map (fun q => (q.2, q.1)) := rfl

set_option maxRecDepth 4000 in
theorem datePasses_sentinelActivity : datePasses 0 sentinelActivity = true := by decide

theorem processActivities_sentinel_eval :
    (processActivities [sentinelActivity] 0).features = [toFeature sentinelActivity] := by
  have hne : (activityCoords sentinelActivity).length ≠ 0 := by
    rw [activityCoords_sentinelActivity]
    simp [mockPolylineCoords]
  simp only [processActivities]
  norm_num [List.filter_cons, datePasses_sentinelActivity,
    hasPolyline_sentinelActivity, List.mergeSort_singleton,
    List.filterMap_cons, hne]
  rw [if_neg (fun h => hne (by rw [h]; rfl))]

theorem processActivitiesV2_sentinel_eval :
    processActivitiesV2 [sentinelActivity] 0 = [toFeatureV2 sentinelActivity] := by
  simp only [processActivitiesV2]
  norm_num [List.filter_cons, datePasses_sentinelActivity,
    hasPolyline_sentinelActivity, List.mergeSort_singleton]

/-- Witness for C5. -/
theorem features_have_points_witness :
    1 ≤ (toFeature sentinelActivity).coordinates.length
    ∧ 1 ≤ (toFeatureV2 sentinelActivity).coordinates.length :=
  ⟨features_have_points.1 [sentinelActivity] 0 (toFeature sentinelActivity)
      (by rw [processActivities_sentinel_eval]; exact List.mem_cons_self _ _),
   features_have_points.2 [sentinelActivity] 0 (toFeatureV2 sentinelActivity)
      (by rw [processActivitiesV2_sentinel_eval]; exact List.mem_cons_self _ _)⟩

/-- C6 counterexample: on a list holding one activity dated before
`startDate` and one dated after it but carrying no polyline,
`processActivities` emits no feature at all, although the second activity
satisfies `start_date ≥ startDate` — features are additionally restricted
to polyline-bearing activities (part_004 line 63). -/
theorem processActivities_filter_counterexample :
    (processActivities [beforeStartActivity, afterStartNoPolyActivity] 50).features = []
    ∧ datePasses 50 afterStartNoPolyActivity = true := by
  constructor
  · have hd1 : datePasses 50 beforeStartActivity = false := by decide
    have hd2 : datePasses 50 afterStartNoPolyActivity = true := by decide
    have hp : hasPolyline afterStartNoPolyActivity = false := by decide
    simp only [processActivities]
    norm_num [List.filter_cons, hd1, hd2, hp, List.mergeSort_singleton]
  · decide

theorem dateLe_trans (a b c : SummaryActivity) :
    dateLe a b → dateLe b c → dateLe a c := by
  simp only [dateLe, decide_eq_true_eq]
  exact le_trans

theorem dateLe_total (a b : SummaryActivity) : dateLe a b || dateLe b a := by
  simp only [dateLe]
  rcases le_total (startTime a) (startTime b) with h | h <;> simp [h]

theorem filterMap_skip_eq_map_filter (l : List SummaryActivity) :
    (l.filterMap fun a =>
      if (activityCoords a).length = 0 then none else some (toFeature a)) =
      (l.filter fun a => decide ((activityCoords a).length ≠ 0)).map toFeature := by
  induction l with
  | nil => rfl
  | cons x xs ih =>
    by_cases h : (activityCoords x).length = 0
    · have hc : decide ((activityCoords x).length ≠ 0) = false := by
        rw [h]
        rfl
      rw [List.filterMap_cons, if_pos h, List.filter_cons, hc]
      exact ih
    · have hc : decide ((activityCoords x).length ≠ 0) = true := by
        simpa using h
      rw [List.filterMap_cons, if_neg h, List.filter_cons, hc]
      exact congrArg (List.cons (toFeature x)) ih

/-- C6 (amended): `processActivities` returns features for exactly those
activities with `start_date ≥ startDate` that also carry a non-empty
polyline decoding to at least one point, ordered ascending by
`start_date`: every emitted feature comes from a qualifying activity,
every qualifying activity yields its feature, and the emitted dates are
pairwise ascending. -/
theorem processActivities_filter_sorted (activities : List SummaryActivity)
    (startDate : ℚ) :
    (∀ f ∈ (processActivities activities startDate).features,
      ∃ a ∈ activities, datePasses startDate a = true ∧ f = toFeature a)
    ∧ (∀ a ∈ activities, datePasses startDate a = true →
        hasPolyline a = true → (activityCoords a).length ≠ 0 →
        toFeature a ∈ (processActivities activities startDate).features)
    ∧ List.Pairwise (fun f g : MapFeature => f.date.getD 0 ≤ g.date.getD 0)
        (processActivities activities startDate).features := by
  by_cases hemp : activities.length = 0
  · have : (processActivities activities startDate).features = [] := by
      simp [processActivities, hemp]
    rw [this]
    refine ⟨by simp, ?_, by simp⟩
    intro a ha
    rw [List.length_eq_zero.mp hemp] at ha
    simp at ha
  · have hfeat : (processActivities activities startDate).features =
        ((((activities.filter (datePasses startDate)).mergeSort dateLe).filter
          hasPolyline).filter fun a => decide ((activityCoords a).length ≠ 0)).map
            toFeature := by
      simp only [processActivities, if_neg hemp]
      exact filterMap_skip_eq_map_filter _
    refine ⟨?_, ?_, ?_⟩
    · intro f hf
      rw [hfeat] at hf
      obtain ⟨a, ha, rfl⟩ := List.mem_map.mp hf
      have ha1 := (List.mem_filter.mp ha).1
      have ha2 := (List.mem_filter.mp ha1).1
      rw [List.mem_mergeSort] at ha2
      exact ⟨a, (List.mem_filter.mp ha2).1, (List.mem_filter.mp ha2).2, rfl⟩
    · intro a ha hdate hpoly hcoords
      rw [hfeat]
      refine List.mem_map.mpr ⟨a, ?_, rfl⟩
      refine List.mem_filter.mpr ⟨List.mem_filter.mpr ⟨?_, hpoly⟩, by simpa using hcoords⟩
      rw [List.mem_mergeSort]
      exact List.mem_filter.mpr ⟨ha, hdate⟩
    · rw [hfeat]
      rw [List.pairwise_map]
      have hsorted : ((activities.filter (datePasses startDate)).mergeSort
          dateLe).Pairwise (fun a b => dateLe a b) :=
        List.sorted_mergeSort dateLe_trans dateLe_total _
      have h1 := hsorted.filter hasPolyline
      have h2 := h1.filter (fun a => decide ((activityCoords a).length ≠ 0))
      refine h2.imp ?_
      intro a b hab
      simpa [dateLe, startTime, toFeature] using hab

/-- Witness for C6 (amended). -/
theorem processActivities_filter_sorted_witness :
    toFeature sentinelActivity ∈ (processActivities [sentinelActivity] 0).features :=
  (processActivities_filter_sorted [sentinelActivity] 0).2.1 sentinelActivity
    (List.mem_cons_self _ _) datePasses_sentinelActivity
    hasPolyline_sentinelActivity
    (by rw [activityCoords_sentinelActivity]
        simp [mockPolylineCoords])

theorem toInt32_eq_self {n : ℤ} (h1 : -(2 ^ 31) ≤ n) (h2 : n < 2 ^ 31) :
    toInt32 n = n := by
  unfold toInt32
  omega

theorem jsRound_int (a : ℤ) : jsRound ((a : ℚ)) = a := by
  unfold jsRound
  rw [Int.floor_int_add]
  norm_num

theorem lor_mul_two_pow {a b k : ℕ} (h : a < 2 ^ k) :
    a ||| b * 2 ^ k = a + b * 2 ^ k := by
  apply Nat.eq_of_testBit_eq
  intro i
  rcases lt_or_le i k with hik | hik
  · have hb : (b * 2 ^ k).testBit i = false := by
      have : (b * 2 ^ k) % 2 ^ k = 0 := by
        simp [Nat.mul_mod_left]
      have h1 := Nat.testBit_mod_two_pow (b * 2 ^ k) k i
      rw [this] at h1
      simp [hik] at h1
      simp [h1]
    have hs : (a + b * 2 ^ k).testBit i = a.testBit i := by
      have hmod : (a + b * 2 ^ k) % 2 ^ k = a := by
        rw [Nat.add_mul_mod_self_right]
        exact Nat.mod_eq_of_lt h
      have h1 := Nat.testBit_mod_two_pow (a + b * 2 ^ k) k i
      rw [hmod] at h1
      simpa [hik] using h1.symm
    simp [Nat.testBit_or, hb, hs]
  · have ha : a.testBit i = false :=
      Nat.testBit_lt_two_pow (lt_of_lt_of_le h (Nat.pow_le_pow_right (by norm_num) hik))
    have hdiv : (a + b * 2 ^ k) / 2 ^ i = (b * 2 ^ k) / 2 ^ i := by
      obtain ⟨j, rfl⟩ := Nat.exists_eq_add_of_le hik
      rw [pow_add, ← Nat.div_div_eq_div_mul, ← Nat.div_div_eq_div_mul]
      congr 1
      rw [Nat.add_mul_div_right _ _ (Nat.pos_pow_of_pos k (by norm_num)),
        Nat.mul_div_cancel _ (Nat.pos_pow_of_pos k (by norm_num)),
        Nat.div_eq_of_lt h]
      omega
    have h2 : (a + b * 2 ^ k).testBit i = (b * 2 ^ k).testBit i := by
      rw [Nat.testBit_to_div_mod, Nat.testBit_to_div_mod, hdiv]
    simp [Nat.testBit_or, ha, h2]

theorem encodeValueAux_ne_nil (v : ℤ) : encodeValueAux v ≠ [] := by
  rw [encodeValueAux]
  split
  · simp
  · simp

theorem readVarint_encodeValueAux :
    ∀ (n : ℕ) (v : ℤ), v.toNat ≤ n → 0 ≤ v →
      ∀ (s result : ℕ) (rest : List ℕ), result < 2 ^ s → v * 2 ^ s < 2 ^ 31 →
      readVarint (encodeValueAux v ++ rest) s result =
        (result + v.toNat * 2 ^ s, rest) := by
  intro n
  induction n with
  | zero =>
    intro v hn h0 s result rest hres hbound
    have hv : v = 0 := by omega
    subst hv
    rw [encodeValueAux]
    norm_num [readVarint]
  | succ n ih =>
    intro v hn h0 s result rest hres hbound
    rw [encodeValueAux]
    split
    · rename_i h32
      rw [List.cons_append]
      simp only [readVarint]
      have hb : ((95 + (v % 32).toNat : ℕ) : ℤ) - 63 = 32 + v % 32 := by
        have : (0 : ℤ) ≤ v % 32 := Int.emod_nonneg v (by norm_num)
        push_cast [Int.toNat_of_nonneg this]
        ring
      rw [hb]
      rw [if_pos (by have : (0 : ℤ) ≤ v % 32 := Int.emod_nonneg v (by norm_num); omega)]
      have hmod32 : (32 + v % 32) % 32 = v % 32 := by omega
      rw [hmod32]
      have hs25 : s ≤ 25 := by
        by_contra hcon
        have h26 : 26 ≤ s := by omega
        have : (2 : ℤ) ^ 31 ≤ v * 2 ^ s := by
          calc (2 : ℤ) ^ 31 = 32 * 2 ^ 26 := by norm_num
            _ ≤ 32 * 2 ^ s := by
                have : (2 : ℤ) ^ 26 ≤ 2 ^ s := pow_le_pow_right₀ (by norm_num) h26
                omega
            _ ≤ v * 2 ^ s := by
                have hp : (0 : ℤ) < 2 ^ s := by positivity
                exact mul_le_mul_of_nonneg_right h32 (le_of_lt hp)
        omega
      have hsmod : s % 32 = s := Nat.mod_eq_of_lt (by omega)
      rw [hsmod]
      have hlow32 : (v % 32).toNat < 32 := by
        have : (0 : ℤ) ≤ v % 32 := Int.emod_nonneg v (by norm_num)
        have : v % 32 < 32 := Int.emod_lt_of_pos v (by norm_num)
        omega
      have hsmall : (v % 32).toNat * 2 ^ s < 2 ^ 32 := by
        calc (v % 32).toNat * 2 ^ s < 32 * 2 ^ s := by
              have hp : 0 < 2 ^ s := Nat.pos_pow_of_pos s (by norm_num)
              exact (Nat.mul_lt_mul_right hp).mpr hlow32
          _ = 2 ^ (s + 5) := by rw [pow_add]; ring
          _ ≤ 2 ^ 30 := Nat.pow_le_pow_right (by norm_num) (by omega)
          _ < 2 ^ 32 := by norm_num
      rw [Nat.mod_eq_of_lt hsmall]
      rw [lor_mul_two_pow hres]
      have hfd0 : 0 ≤ v.fdiv 32 := Int.fdiv_nonneg h0 (by norm_num)
      have hfde : v.fdiv 32 = v / 32 := Int.fdiv_eq_ediv v (by norm_num)
      have hlt : (v.fdiv 32).toNat ≤ n := by
        rw [hfde]
        omega
      have hres' : result + (v % 32).toNat * 2 ^ s < 2 ^ (s + 5) := by
        have h32s : (v % 32).toNat * 2 ^ s ≤ 31 * 2 ^ s := by
          exact Nat.mul_le_mul_right _ (by omega)
        calc result + (v % 32).toNat * 2 ^ s < 2 ^ s + 31 * 2 ^ s := by omega
          _ = 2 ^ (s + 5) := by rw [pow_add]; ring
      have hbound' : v.fdiv 32 * 2 ^ (s + 5) < 2 ^ 31 := by
        rw [hfde]
        calc v / 32 * 2 ^ (s + 5) = v / 32 * 32 * 2 ^ s := by
              rw [pow_add]
              push_cast
              ring
          _ ≤ v * 2 ^ s := by
              have : v / 32 * 32 ≤ v := by omega
              have hp : (0 : ℤ) ≤ 2 ^ s := by positivity
              exact mul_le_mul_of_nonneg_right this hp
          _ < 2 ^ 31 := hbound
      rw [ih (v.fdiv 32) hlt hfd0 (s + 5) _ rest hres' hbound']
      have hsplit : v.toNat = (v % 32).toNat + 32 * (v.fdiv 32).toNat := by
        rw [hfde]
        omega
      refine congrArg (fun z => (z, rest)) ?_
      calc result + (v % 32).toNat * 2 ^ s + (v.fdiv 32).toNat * 2 ^ (s + 5)
          = result + ((v % 32).toNat + 32 * (v.fdiv 32).toNat) * 2 ^ s := by
            rw [pow_add]
            ring
        _ = result + v.toNat * 2 ^ s := by rw [← hsplit]
    · rename_i h32
      have hv32 : v < 32 := by omega
      have h63 : (v + 63) % 65536 = v + 63 := by omega
      rw [h63, List.cons_append]
      simp only [readVarint]
      have hb : (((v + 63).toNat : ℕ) : ℤ) - 63 = v := by omega
      rw [hb]
      rw [if_neg (by omega)]
      have hvmod : v % 32 = v := by omega
      rw [hvmod]
      rcases Nat.eq_zero_or_pos v.toNat with hv0 | hvpos
      · rw [hv0]
        simp
      · have hs30 : s ≤ 30 := by
          by_contra hcon
          have h31 : 31 ≤ s := by omega
          have h1v : (1 : ℤ) ≤ v := by omega
          have : (2 : ℤ) ^ 31 ≤ v * 2 ^ s := by
            calc (2 : ℤ) ^ 31 ≤ 2 ^ s := pow_le_pow_right₀ (by norm_num) h31
              _ = 1 * 2 ^ s := by ring
              _ ≤ v * 2 ^ s := by
                  have hp : (0 : ℤ) ≤ 2 ^ s := by positivity
                  exact mul_le_mul_of_nonneg_right h1v hp
          omega
        have hsmod : s % 32 = s := Nat.mod_eq_of_lt (by omega)
        rw [hsmod]
        have hsmall : v.toNat * 2 ^ s < 2 ^ 32 := by
          have : (v.toNat : ℤ) * 2 ^ s < 2 ^ 31 := by
            rw [Int.toNat_of_nonneg h0]
            exact_mod_cast hbound
          have h2 : v.toNat * 2 ^ s < 2 ^ 31 := by exact_mod_cast this
          omega
        rw [Nat.mod_eq_of_lt hsmall]
        rw [lor_mul_two_pow hres]
        simp

theorem zig_spec (value : ℤ) (h1 : -(2 ^ 29) ≤ value) (h2 : value ≤ 2 ^ 29) :
    0 ≤ (if value < 0 then -1 - jsShl1 value else jsShl1 value)
    ∧ (if value < 0 then -1 - jsShl1 value else jsShl1 value) < 2 ^ 31
    ∧ decodeDelta (if value < 0 then -1 - jsShl1 value
        else jsShl1 value).toNat = value := by
  have ht : toInt32 value = value := toInt32_eq_self (by omega) (by omega)
  have hshl : jsShl1 value = 2 * value := by
    unfold jsShl1
    rw [ht]
    exact toInt32_eq_self (by omega) (by omega)
  by_cases hneg : value < 0
  · rw [if_pos hneg, hshl]
    refine ⟨by omega, by omega, ?_⟩
    unfold decodeDelta
    have hodd : (-1 - 2 * value).toNat % 2 = 1 := by omega
    rw [if_pos hodd]
    have ht2 : toInt32 (((-1 - 2 * value).toNat : ℕ) : ℤ) = -1 - 2 * value := by
      rw [Int.toNat_of_nonneg (by omega)]
      exact toInt32_eq_self (by omega) (by omega)
    rw [ht2, Int.fdiv_eq_ediv _ (by norm_num)]
    omega
  · rw [if_neg hneg, hshl]
    refine ⟨by omega, by omega, ?_⟩
    unfold decodeDelta
    have heven : (2 * value).toNat % 2 = 0 := by omega
    rw [if_neg (by omega)]
    have ht2 : toInt32 (((2 * value).toNat : ℕ) : ℤ) = 2 * value := by
      rw [Int.toNat_of_nonneg (by omega)]
      exact toInt32_eq_self (by omega) (by omega)
    rw [ht2, Int.fdiv_eq_ediv _ (by norm_num)]
    omega

theorem decodeLoop_of_ne_nil (codes : List ℕ) (h : codes ≠ []) (lat lng : ℤ) :
    decodeLoop codes lat lng =
      (((lat + decodeDelta (readVarint codes 0 0).1 : ℤ) : ℚ) / 100000,
       ((lng + decodeDelta (readVarint (readVarint codes 0 0).2 0 0).1 : ℤ) : ℚ)
        / 100000) ::
        decodeLoop (readVarint (readVarint codes 0 0).2 0 0).2
          (lat + decodeDelta (readVarint codes 0 0).1)
          (lng + decodeDelta (readVarint (readVarint codes 0 0).2 0 0).1) := by
  match codes with
  | [] => exact absurd rfl h
  | c :: cs => exact decodeLoop_cons c cs lat lng

theorem decodeLoop_encLoop :
    ∀ (points : List (ℚ × ℚ)) (lat lng : ℤ),
      lat.natAbs ≤ 9000000 → lng.natAbs ≤ 18000000 →
      (∀ q ∈ points, ∃ a b : ℤ, q = ((a : ℚ) / 100000, (b : ℚ) / 100000) ∧
        a.natAbs ≤ 9000000 ∧ b.natAbs ≤ 18000000) →
      decodeLoop (encLoop points lat lng) lat lng = points := by
  intro points
  induction points with
  | nil =>
    intro lat lng _ _ _
    simp [encLoop, decodeLoop]
  | cons q rest ih =>
    intro lat lng hlat hlng hP
    obtain ⟨a, b, hq, ha, hb⟩ := hP q (List.mem_cons_self _ _)
    have hq1 : q.1 = (a : ℚ) / 100000 := by rw [hq]
    have hq2 : q.2 = (b : ℚ) / 100000 := by rw [hq]
    have hlatV : jsRound (q.1 * 100000) = a := by
      rw [hq1, div_mul_cancel₀ _ (by norm_num : (100000 : ℚ) ≠ 0), jsRound_int]
    have hlngV : jsRound (q.2 * 100000) = b := by
      rw [hq2, div_mul_cancel₀ _ (by norm_num : (100000 : ℚ) ≠ 0), jsRound_int]
    have hene : encLoop (q :: rest) lat lng =
        encodeValue (a - lat) ++ (encodeValue (b - lng) ++ encLoop rest a b) := by
      simp only [encLoop]
      rw [hlatV, hlngV, List.append_assoc]
    rw [hene]
    obtain ⟨hv1nn, hv1lt, hv1dec⟩ := zig_spec (a - lat) (by omega) (by omega)
    obtain ⟨hv2nn, hv2lt, hv2dec⟩ := zig_spec (b - lng) (by omega) (by omega)
    have he1 : encodeValue (a - lat) =
        encodeValueAux (if (a - lat) < 0 then -1 - jsShl1 (a - lat)
          else jsShl1 (a - lat)) := rfl
    have he2 : encodeValue (b - lng) =
        encodeValueAux (if (b - lng) < 0 then -1 - jsShl1 (b - lng)
          else jsShl1 (b - lng)) := rfl
    have hr1 : readVarint (encodeValue (a - lat) ++
        (encodeValue (b - lng) ++ encLoop rest a b)) 0 0 =
        (0 + (if (a - lat) < 0 then -1 - jsShl1 (a - lat)
          else jsShl1 (a - lat)).toNat * 2 ^ 0,
         encodeValue (b - lng) ++ encLoop rest a b) := by
      rw [he1]
      exact readVarint_encodeValueAux _ _ le_rfl hv1nn 0 0 _ (by norm_num)
        (by simpa using hv1lt)
    have hr2 : readVarint (encodeValue (b - lng) ++ encLoop rest a b) 0 0 =
        (0 + (if (b - lng) < 0 then -1 - jsShl1 (b - lng)
          else jsShl1 (b - lng)).toNat * 2 ^ 0,
         encLoop rest a b) := by
      rw [he2]
      exact readVarint_encodeValueAux _ _ le_rfl hv2nn 0 0 _ (by norm_num)
        (by simpa using hv2lt)
    have hne : encodeValue (a - lat) ++
        (encodeValue (b - lng) ++ encLoop rest a b) ≠ [] := by
      rw [he1]
      simp [encodeValueAux_ne_nil]
    rw [decodeLoop_of_ne_nil _ hne, hr1, hr2]
    simp only [pow_zero, mul_one, Nat.zero_add]
    rw [hv1dec, hv2dec]
    have hlat' : lat + (a - lat) = a := by ring
    have hlng' : lng + (b - lng) = b := by ring
    rw [hlat', hlng']
    have htail : decodeLoop (encLoop rest a b) a b = rest :=
      ih a b (by omega) (by omega)
        (fun p hp => hP p (List.mem_cons_of_mem _ hp))
    rw [htail, ← hq1, ← hq2]

theorem encodeValueAux_mem_lt :
    ∀ (n : ℕ) (v : ℤ), v.toNat ≤ n → 0 ≤ v → ∀ c ∈ encodeValueAux v, c < 128 := by
  intro n
  induction n with
  | zero =>
    intro v hn h0 c hc
    have hv : v = 0 := by omega
    subst hv
    rw [encodeValueAux] at hc
    norm_num at hc
    omega
  | succ n ih =>
    intro v hn h0 c hc
    rw [encodeValueAux] at hc
    split at hc
    · rename_i h32
      rcases List.mem_cons.mp hc with rfl | hc'
      · have h1 : (0 : ℤ) ≤ v % 32 := Int.emod_nonneg v (by norm_num)
        have h2 : v % 32 < 32 := Int.emod_lt_of_pos v (by norm_num)
        omega
      · refine ih (v.fdiv 32) ?_ (Int.fdiv_nonneg h0 (by norm_num)) c hc'
        rw [Int.fdiv_eq_ediv _ (by norm_num)]
        omega
    · rename_i h32
      have h63 : (v + 63) % 65536 = v + 63 := by omega
      rw [h63] at hc
      simp at hc
      omega

theorem encodeValueAux_getLast :
    ∀ (n : ℕ) (v : ℤ), v.toNat ≤ n → 0 ≤ v →
      ∃ c, (encodeValueAux v).getLast? = some c ∧ c < 95 := by
  intro n
  induction n with
  | zero =>
    intro v hn h0
    have hv : v = 0 := by omega
    subst hv
    rw [encodeValueAux]
    norm_num
  | succ n ih =>
    intro v hn h0
    rw [encodeValueAux]
    split
    · rename_i h32
      obtain ⟨c, hc, hlt⟩ := ih (v.fdiv 32)
        (by rw [Int.fdiv_eq_ediv _ (by norm_num)]; omega)
        (Int.fdiv_nonneg h0 (by norm_num))
      refine ⟨c, ?_, hlt⟩
      rw [show ((95 + (v % 32).toNat) :: encodeValueAux (v.fdiv 32)) =
        [95 + (v % 32).toNat] ++ encodeValueAux (v.fdiv 32) from rfl]
      rw [List.getLast?_append, hc]
      simp
    · rename_i h32
      have h63 : (v + 63) % 65536 = v + 63 := by omega
      rw [h63]
      exact ⟨(v + 63).toNat, rfl, by omega⟩

theorem encLoop_cons_eq (q : ℚ × ℚ) (rest : List (ℚ × ℚ)) (lat lng a b : ℤ)
    (hq : q = ((a : ℚ) / 100000, (b : ℚ) / 100000)) :
    encLoop (q :: rest) lat lng =
      encodeValue (a - lat) ++ (encodeValue (b - lng) ++ encLoop rest a b) := by
  have hq1 : q.1 = (a : ℚ) / 100000 := by rw [hq]
  have hq2 : q.2 = (b : ℚ) / 100000 := by rw [hq]
  simp only [encLoop]
  rw [hq1, hq2, div_mul_cancel₀ _ (by norm_num : (100000 : ℚ) ≠ 0),
    div_mul_cancel₀ _ (by norm_num : (100000 : ℚ) ≠ 0), jsRound_int, jsRound_int,
    List.append_assoc]

theorem encLoop_mem_lt :
    ∀ (points : List (ℚ × ℚ)) (lat lng : ℤ),
      lat.natAbs ≤ 9000000 → lng.natAbs ≤ 18000000 →
      (∀ q ∈ points, ∃ a b : ℤ, q = ((a : ℚ) / 100000, (b : ℚ) / 100000) ∧
        a.natAbs ≤ 9000000 ∧ b.natAbs ≤ 18000000) →
      ∀ c ∈ encLoop points lat lng, c < 128 := by
  intro points
  induction points with
  | nil =>
    intro lat lng _ _ _ c hc
    simp [encLoop] at hc
  | cons q rest ih =>
    intro lat lng hlat hlng hP c hc
    obtain ⟨a, b, hq, ha, hb⟩ := hP q (List.mem_cons_self _ _)
    rw [encLoop_cons_eq q rest lat lng a b hq] at hc
    obtain ⟨hv1nn, -, -⟩ := zig_spec (a - lat) (by omega) (by omega)
    obtain ⟨hv2nn, -, -⟩ := zig_spec (b - lng) (by omega) (by omega)
    rcases List.mem_append.mp hc with hc1 | hc23
    · exact encodeValueAux_mem_lt _ _ le_rfl hv1nn c hc1
    · rcases List.mem_append.mp hc23 with hc2 | hc3
      · exact encodeValueAux_mem_lt _ _ le_rfl hv2nn c hc2
      · exact ih a b (by omega) (by omega)
          (fun p hp => hP p (List.mem_cons_of_mem _ hp)) c hc3

theorem encLoop_getLast :
    ∀ (points : List (ℚ × ℚ)) (lat lng : ℤ),
      lat.natAbs ≤ 9000000 → lng.natAbs ≤ 18000000 →
      (∀ q ∈ points, ∃ a b : ℤ, q = ((a : ℚ) / 100000, (b : ℚ) / 100000) ∧
        a.natAbs ≤ 9000000 ∧ b.natAbs ≤ 18000000) →
      points ≠ [] →
      ∃ c, (encLoop points lat lng).getLast? = some c ∧ c < 95 := by
  intro points
  induction points with
  | nil =>
    intro _ _ _ _ _ hne
    exact absurd rfl hne
  | cons q rest ih =>
    intro lat lng hlat hlng hP _
    obtain ⟨a, b, hq, ha, hb⟩ := hP q (List.mem_cons_self _ _)
    rw [encLoop_cons_eq q rest lat lng a b hq]
    by_cases hrest : rest = []
    · subst hrest
      obtain ⟨hv2nn, -, -⟩ := zig_spec (b - lng) (by omega) (by omega)
      obtain ⟨c, hc, hlt⟩ := encodeValueAux_getLast _ _ le_rfl hv2nn
      refine ⟨c, ?_, hlt⟩
      rw [List.getLast?_append,
        show encLoop ([] : List (ℚ × ℚ)) a b = [] from rfl, List.append_nil]
      have he2 : encodeValue (b - lng) =
          encodeValueAux (if (b - lng) < 0 then -1 - jsShl1 (b - lng)
            else jsShl1 (b - lng)) := rfl
      rw [he2, hc]
      simp
    · obtain ⟨c, hc, hlt⟩ := ih a b (by omega) (by omega)
        (fun p hp => hP p (List.mem_cons_of_mem _ hp)) hrest
      refine ⟨c, ?_, hlt⟩
      rw [List.getLast?_append, List.getLast?_append, hc]
      simp

theorem encLoop_ne_nil (q : ℚ × ℚ) (rest : List (ℚ × ℚ)) (lat lng a b : ℤ)
    (hq : q = ((a : ℚ) / 100000, (b : ℚ) / 100000)) :
    encLoop (q :: rest) lat lng ≠ [] := by
  rw [encLoop_cons_eq q rest lat lng a b hq]
  simp [encodeValueAux_ne_nil, encodeValue]

theorem char_toNat_ofNat {n : ℕ} (h : n < 128) : (Char.ofNat n).toNat = n := by
  have hv : n.isValidChar := Or.inl (by omega)
  rw [Char.ofNat, dif_pos hv]
  simp [Char.ofNatAux, Char.toNat, UInt32.toNat, BitVec.toNat_ofNatLt]

theorem map_toNat_ofNat (l : List ℕ) (h : ∀ c ∈ l, c < 128) :
    (l.map Char.ofNat).map Char.toNat = l := by
  rw [List.map_map]
  calc l.map (Char.toNat ∘ Char.ofNat)
      = l.map id := List.map_congr_left fun c hc => char_toNat_ofNat (h c hc)
    _ = l := List.map_id l

/-- C1: for every finite coordinate sequence whose latitude and longitude
components are exactly representable with 5 decimal digits (i.e. are
`a / 100000` for integers `a` in the geographic ranges, latitude within
±90 degrees and longitude within ±180), `decodePolyline (encodePolyline p)`
returns `p` element-wise. -/
theorem decode_encode_roundTrip (p : List (ℚ × ℚ))
    (h : ∀ q ∈ p, ∃ a b : ℤ, q = ((a : ℚ) / 100000, (b : ℚ) / 100000) ∧
      a.natAbs ≤ 9000000 ∧ b.natAbs ≤ 18000000) :
    decodePolyline (encodePolyline p) = p := by
  cases p with
  | nil => rfl
  | cons q rest =>
    obtain ⟨a, b, hq, ha, hb⟩ := h q (List.mem_cons_self _ _)
    have hcb : ∀ c ∈ encLoop (q :: rest) 0 0, c < 128 :=
      encLoop_mem_lt (q :: rest) 0 0 (by norm_num) (by norm_num) h
    have hlast : ∃ c, (encLoop (q :: rest) 0 0).getLast? = some c ∧ c < 95 :=
      encLoop_getLast (q :: rest) 0 0 (by norm_num) (by norm_num) h (by simp)
    have hne : encLoop (q :: rest) 0 0 ≠ [] :=
      encLoop_ne_nil q rest 0 0 a b hq
    have henc : encodePolyline (q :: rest) =
        String.mk ((encLoop (q :: rest) 0 0).map Char.ofNat) := rfl
    rw [henc]
    unfold decodePolyline
    have hlen : ¬ ((String.mk ((encLoop (q :: rest) 0 0).map Char.ofNat)).length = 0) := by
      intro hcon
      have : (encLoop (q :: rest) 0 0).map Char.ofNat = [] :=
        List.length_eq_zero.mp (by simpa [String.length] using hcon)
      exact hne (by simpa using this)
    rw [if_neg hlen]
    have hsent : ¬ (String.mk ((encLoop (q :: rest) 0 0).map Char.ofNat) =
        "mock_polyline_data") := by
      intro hcontra
      have hdata : (encLoop (q :: rest) 0 0).map Char.ofNat =
          "mock_polyline_data".data := congrArg String.data hcontra
      have h2 : ((encLoop (q :: rest) 0 0).map Char.ofNat).map Char.toNat =
          "mock_polyline_data".data.map Char.toNat := by rw [hdata]
      rw [map_toNat_ofNat _ hcb] at h2
      obtain ⟨c, hc, hclt⟩ := hlast
      rw [h2] at hc
      have hlit : ("mock_polyline_data".data.map Char.toNat).getLast? = some 97 := by
        rfl
      rw [hlit] at hc
      have : c = 97 := (Option.some_injective _ hc.symm)
      omega
    rw [if_neg hsent]
    rw [show (String.mk ((encLoop (q :: rest) 0 0).map Char.ofNat)).data =
      (encLoop (q :: rest) 0 0).map Char.ofNat from rfl]
    rw [map_toNat_ofNat _ hcb]
    exact decodeLoop_encLoop (q :: rest) 0 0 (by norm_num) (by norm_num) h

/-- Witness for C1: the round trip evaluated on two concrete 5-decimal
coordinates (London and Paris). -/
theorem decode_encode_roundTrip_witness :
    decodePolyline (encodePolyline
      [((5150740 : ℚ) / 100000, (-12780 : ℚ) / 100000),
       ((4885660 : ℚ) / 100000, (235220 : ℚ) / 100000)]) =
      [((5150740 : ℚ) / 100000, (-12780 : ℚ) / 100000),
       ((4885660 : ℚ) / 100000, (235220 : ℚ) / 100000)] :=
  decode_encode_roundTrip _ (by
    intro q hq
    rcases List.mem_cons.mp hq with rfl | hq'
    · exact ⟨5150740, -12780, rfl, by norm_num, by norm_num⟩
    · rcases List.mem_singleton.mp hq' with rfl
      exact ⟨4885660, 235220, rfl, by norm_num, by norm_num⟩)
